import Mathlib

/-!
Verification of the vcf-plink-converter core.

A shallow embedding of the inspection and validation core of the
`vcf_converter` Python package (`src/vcf_converter/inspector.py` and
`src/vcf_converter/validator.py`), together with theorems settling the
specification claims about it.

Modelling conventions:
* a text line is a `List Char`; a file's textual content is a
  `List (List Char)` of its lines (newline terminators are immaterial
  because the source strips every line before classifying it);
* Python string primitives (`str.strip`, `str.find`, `str.split`,
  slicing) are embedded as executable functions on `List Char` with the
  same semantics on the inputs the source feeds them;
* the filesystem seen by the validator is a record of functions giving,
  for each path, its existence bit and the outcome of the two read
  operations the source performs (first text line; first three bytes);
* a Python exception that the source does not catch is modelled as the
  `Except.error` branch of the embedded function's result.
-/

namespace VcfPlink

/-- ASCII whitespace set of Python `str.strip()` (space, tab, newline,
carriage return, vertical tab, form feed). -/
def isPyWhitespace (c : Char) : Bool :=
  c = ' ' || c = '\t' || c = '\n' || c = '\r' || c = '\x0b' || c = '\x0c'

/-- Python `s.strip()`: remove leading and trailing whitespace. -/
def pyStrip (s : List Char) : List Char :=
  ((s.dropWhile isPyWhitespace).reverse.dropWhile isPyWhitespace).reverse

/-- Index of the first occurrence of `sub` as a contiguous sublist of `s`,
`none` if there is no occurrence. -/
def subFind (sub : List Char) : List Char → Option Nat
  | [] => if sub = [] then some 0 else none
  | c :: rest =>
      if sub.isPrefixOf (c :: rest) then some 0
      else (subFind sub rest).map (· + 1)

/-- Python `s.find(sub, start)`: lowest index `≥ start` at which `sub`
occurs in `s`, and `-1` when there is none. -/
def pyFindFrom (sub s : List Char) (start : Nat) : Int :=
  match subFind sub (s.drop start) with
  | none => -1
  | some j => (start + j : Nat)

/-- Python slice `s[a:b]` for `a : Nat` and a possibly negative `b`
(a negative `b` counts from the end of the string). -/
def pySlice (s : List Char) (a : Nat) (b : Int) : List Char :=
  let stop : Nat := if b < 0 then s.length - (-b).toNat else min b.toNat s.length
  (s.take stop).drop a

/-- Python `s.split(sep)` for a one-character separator: split at every
occurrence, keeping empty parts. -/
def pySplit (sep : Char) : List Char → List (List Char)
  | [] => [[]]
  | c :: rest =>
      if c = sep then [] :: pySplit sep rest
      else
        match pySplit sep rest with
        | [] => [[c]]
        | part :: parts => (c :: part) :: parts

/-- Model of `InspectionResult` from `inspector.py`: the summary `inspect` builds. -/
structure InspectionResult where
  file_path : List Char := []
  sample_count : Nat := 0
  variant_count : Nat := 0
  contigs : List (List Char) := []
  info_fields : List (List Char) := []
  format_fields : List (List Char) := []
  header_line_count : Nat := 0
deriving DecidableEq, Repr

/-- Model of `VCFInspector._parse_meta_line`: on a `##contig=`/`##INFO=`/`##FORMAT=`
line, locate `ID=`, cut at the first `,` at-or-after it (falling back, for
contig lines only, to the first `>`; a failed find yields Python index `-1`,
which as a slice endpoint drops the final character), and append the cut
value to the matching list when it is non-empty. -/
def parse_meta_line (line : List Char) (result : InspectionResult) :
    InspectionResult :=
  if "##contig=".toList.isPrefixOf line then
    let start := pyFindFrom "ID=".toList line 0
    if start ≥ 0 then
      let st := start.toNat
      let end0 := pyFindFrom ",".toList line st
      let e := if end0 < 0 then pyFindFrom ">".toList line st else end0
      let contig_id := pySlice line (st + 3) e
      if contig_id ≠ [] then
        { result with contigs := result.contigs ++ [contig_id] }
      else result
    else result
  else if "##INFO=".toList.isPrefixOf line then
    let start := pyFindFrom "ID=".toList line 0
    if start ≥ 0 then
      let st := start.toNat
      let e := pyFindFrom ",".toList line st
      let field_id := pySlice line (st + 3) e
      if field_id ≠ [] then
        { result with info_fields := result.info_fields ++ [field_id] }
      else result
    else result
  else if "##FORMAT=".toList.isPrefixOf line then
    let start := pyFindFrom "ID=".toList line 0
    if start ≥ 0 then
      let st := start.toNat
      let e := pyFindFrom ",".toList line st
      let field_id := pySlice line (st + 3) e
      if field_id ≠ [] then
        { result with format_fields := result.format_fields ++ [field_id] }
      else result
    else result
  else result

/-- One iteration of the `for line in fh` loop of `VCFInspector.inspect`:
strip the line, then classify it as meta-line, column-header line, data
line or blank line. -/
def inspectLine (result : InspectionResult) (rawLine : List Char) :
    InspectionResult :=
  let line := pyStrip rawLine
  if "##".toList.isPrefixOf line then
    parse_meta_line line
      { result with header_line_count := result.header_line_count + 1 }
  else if "#CHROM".toList.isPrefixOf line then
    let result := { result with header_line_count := result.header_line_count + 1 }
    let cols := pySplit '\t' line
    if cols.length > 9 then { result with sample_count := cols.length - 9 }
    else result
  else if line ≠ [] then
    { result with variant_count := result.variant_count + 1 }
  else result

/-- The fresh `InspectionResult(file_path=str(vcf_path))`. -/
def initResult (path : List Char) : InspectionResult :=
  { file_path := path }

/-- The whole line loop of `VCFInspector.inspect` over a decoded stream. -/
def inspectLines (path : List Char) (lines : List (List Char)) :
    InspectionResult :=
  lines.foldl inspectLine (initResult path)

/-- Errors `VCFInspector.inspect` lets propagate: the source opens the
file and iterates its lines inside a `with` block with no exception
handler, so an `OSError` from opening and a decode-class error raised
while reading lines (`UnicodeDecodeError`, `gzip.BadGzipFile`, truncated
stream) reach the caller as exceptions. -/
inductive InspectError where
  | ioFailure (msg : List Char)
  | decodeFailure (msg : List Char)
deriving DecidableEq, Repr

/-- Outcome of opening and decoding the byte stream behind a path (the
gzip-vs-plain choice the source makes from the extension only affects
which concrete exceptions can arise, which this abstracts): either the
open call raises, or some prefix of the stream decodes into lines and the
read then either ends cleanly or raises a decode-class error. -/
inductive InspectSource where
  | openFails (msg : List Char)
  | stream (lines : List (List Char)) (decodeErr : Option (List Char))
deriving DecidableEq, Repr

/-- Model of `VCFInspector.inspect`: an exception anywhere discards the partially
built `InspectionResult`; only a cleanly decoded stream yields a summary. -/
def inspect (path : List Char) (src : InspectSource) :
    Except InspectError InspectionResult :=
  match src with
  | .openFails m => .error (.ioFailure m)
  | .stream lines none => .ok (inspectLines path lines)
  | .stream _ (some m) => .error (.decodeFailure m)

/-- Python `pathlib`'s `Path(p).name` on a POSIX path: the last component
after splitting on `/`, with empty and `.` components dropped. -/
def pathName (p : List Char) : List Char :=
  ((pySplit '/' p).filter (fun comp => !comp.isEmpty && comp != ['.'])).getLastD []

/-- Index of the last occurrence of `c` in `s` (Python `s.rfind(c)`),
`-1` when absent. -/
def pyRfind (c : Char) (s : List Char) : Int :=
  match subFind [c] s.reverse with
  | none => -1
  | some j => (s.length : Int) - 1 - (j : Int)

/-- Python `pathlib`'s `Path(p).suffix`: `name[i:]` for the last dot
position `i` when `0 < i < len(name) - 1`, else the empty string. -/
def pySuffix (p : List Char) : List Char :=
  let nm := pathName p
  let i := pyRfind '.' nm
  if 0 < i ∧ i < (nm.length : Int) - 1 then nm.drop i.toNat else []

/-- Model of `ValidationReport` from `validator.py` (mutable dataclass in the
source; here each check builds its final value). -/
structure ValidationReport where
  files_checked : Nat := 0
  valid : Nat := 0
  invalid : List (List Char) := []
  warnings : List (List Char) := []
deriving DecidableEq, Repr

/-- The `all_valid` property: `len(self.invalid) == 0`. -/
def ValidationReport.all_valid (r : ValidationReport) : Bool :=
  r.invalid.length == 0

/-- Constant `FileValidator.VCF_HEADER`. -/
def VCF_HEADER : List Char := "##fileformat=VCF".toList

/-- Constant `FileValidator.PLINK_BED_MAGIC`, as byte values. -/
def PLINK_BED_MAGIC : List Nat := [0x6c, 0x1b, 0x01]

/-- Outcome of opening a path in text mode and reading its first line,
split by the exception class a raise would belong to, because
`validate_vcf`'s `except` clause catches only `(OSError,
gzip.BadGzipFile)`:
* `ok`: the first line was read and decoded;
* `oserr`: an `OSError` (including `gzip.BadGzipFile`) was raised — the
  class the source catches;
* `uncaught`: an exception outside that class was raised, such as
  `UnicodeDecodeError` on non-UTF-8 bytes, `EOFError` on a truncated
  gzip stream, or `zlib.error` on a corrupt one — the source does not
  catch these, so they propagate to the caller. -/
inductive TextRead where
  | ok (firstLine : List Char)
  | oserr (msg : List Char)
  | uncaught (msg : List Char)
deriving DecidableEq, Repr

/-- The filesystem as the validator observes it: existence per path, the
outcome of reading the first text line of a path (with the raised
exception's class recorded, see `TextRead`), and the outcome of reading
the first three bytes of a path in binary mode (`.error` = a raised
`OSError`, which the source never catches on this path). -/
structure FS where
  ex : List Char → Bool
  readText : List Char → TextRead
  readBin3 : List Char → Except (List Char) (List Nat)

/-- Violation message `f"File not found: {vcf_path}"`. -/
def msgNotFound (p : List Char) : List Char := "File not found: ".toList ++ p

/-- Violation message `f"Missing VCF header: {vcf_path}"`. -/
def msgMissingHeader (p : List Char) : List Char :=
  "Missing VCF header: ".toList ++ p

/-- Violation message `f"Read error: {exc}"`. -/
def msgReadError (e : List Char) : List Char := "Read error: ".toList ++ e

/-- Violation message `f"Missing .{label} file: {fp}"`. -/
def msgMissingFile (label fp : List Char) : List Char :=
  "Missing .".toList ++ label ++ " file: ".toList ++ fp

/-- Violation message `f"Invalid .bed magic bytes: {bed}"`. -/
def msgBadMagic (fp : List Char) : List Char :=
  "Invalid .bed magic bytes: ".toList ++ fp

/-- Model of `FileValidator.validate_vcf`: existence check, then read
the first line inside `try ... except (OSError, gzip.BadGzipFile)` and
test it against `VCF_HEADER`.  A missing file, a bad signature and a
caught read error each become one violation entry in a returned report;
an exception outside the caught class (decode errors, truncated gzip)
propagates to the caller, modelled by the `.error` branch. -/
def validate_vcf (fs : FS) (vcf_path : List Char) :
    Except (List Char) ValidationReport :=
  if !fs.ex vcf_path then
    .ok { files_checked := 1, invalid := [msgNotFound vcf_path] }
  else
    match fs.readText vcf_path with
    | .ok rawLine =>
        if VCF_HEADER.isPrefixOf (pyStrip rawLine) then
          .ok { files_checked := 1, valid := 1 }
        else
          .ok { files_checked := 1, invalid := [msgMissingHeader vcf_path] }
    | .oserr exc =>
        .ok { files_checked := 1, invalid := [msgReadError exc] }
    | .uncaught exc => .error exc

/-- Companion path derived from the shared path stem by the `.bed` suffix. -/
def bedPath (pfx : List Char) : List Char := pfx ++ ".bed".toList

/-- Companion path `f"\x7bprefix\x7d.bim"`. -/
def bimPath (pfx : List Char) : List Char := pfx ++ ".bim".toList

/-- Companion path `f"\x7bprefix\x7d.fam"`. -/
def famPath (pfx : List Char) : List Char := pfx ++ ".fam".toList

/-- Model of `FileValidator.validate_plink_binary`: the existence loop over
`[(bed, "bed"), (bim, "bim"), (fam, "fam")]` appends one violation per
missing file; if the `.bed` file exists its first three bytes are read
*outside any exception handler* — a raised `OSError` there propagates,
modelled by the `.error` branch — and compared against the magic;
existing `.bim`/`.fam` files count as valid unconditionally. -/
def validate_plink_binary (fs : FS) (bfile_pfx : List Char) :
    Except (List Char) ValidationReport :=
  let bed := bedPath bfile_pfx
  let bim := bimPath bfile_pfx
  let fam := famPath bfile_pfx
  let inv0 :=
    [(bed, "bed".toList), (bim, "bim".toList), (fam, "fam".toList)].foldl
      (fun acc fl => if fs.ex fl.1 then acc else acc ++ [msgMissingFile fl.2 fl.1])
      []
  let tailValid : Nat :=
    (if fs.ex bim then 1 else 0) + (if fs.ex fam then 1 else 0)
  if fs.ex bed then
    match fs.readBin3 bed with
    | .error exc => .error exc
    | .ok magic =>
        if magic = PLINK_BED_MAGIC then
          .ok { files_checked := 3, valid := 1 + tailValid, invalid := inv0 }
        else
          .ok { files_checked := 3, valid := tailValid,
                invalid := inv0 ++ [msgBadMagic bed] }
  else
    .ok { files_checked := 3, valid := tailValid, invalid := inv0 }

/-- The suffix tuple `(".vcf", ".gz")` of `validate_batch`. -/
def TEXT_SUFFIXES : List (List Char) := [".vcf".toList, ".gz".toList]

/-- Pointwise aggregation of two reports, as performed by the loop body of
`validate_batch` (`+=` on the counters, `extend` on the sequences). -/
def combineReports (a b : ValidationReport) : ValidationReport :=
  { files_checked := a.files_checked + b.files_checked,
    valid := a.valid + b.valid,
    invalid := a.invalid ++ b.invalid,
    warnings := a.warnings ++ b.warnings }

/-- The loop of `validate_batch` with the accumulated `combined` report;
an exception raised by a sub-check aborts the loop and propagates. -/
def validateBatchGo (fs : FS) : List (List Char) → ValidationReport →
    Except (List Char) ValidationReport
  | [], combined => .ok combined
  | p :: ps, combined =>
      let sub : Except (List Char) ValidationReport :=
        if TEXT_SUFFIXES.contains (pySuffix p) then validate_vcf fs p
        else validate_plink_binary fs p
      match sub with
      | .error exc => .error exc
      | .ok s => validateBatchGo fs ps (combineReports combined s)

/-- Model of `FileValidator.validate_batch`. -/
def validate_batch (fs : FS) (paths : List (List Char)) :
    Except (List Char) ValidationReport :=
  validateBatchGo fs paths {}

/-- The list of per-path sub-reports `validate_batch` aggregates: each
path is dispatched to `validate_vcf` when its suffix is recognized and to
`validate_plink_binary` otherwise; the first propagated exception aborts
the list. -/
def subReports (fs : FS) : List (List Char) →
    Except (List Char) (List ValidationReport)
  | [] => .ok []
  | p :: ps =>
      match (if TEXT_SUFFIXES.contains (pySuffix p) then validate_vcf fs p
             else validate_plink_binary fs p) with
      | .error e => .error e
      | .ok rep =>
          match subReports fs ps with
          | .error e => .error e
          | .ok reps => .ok (rep :: reps)

/-- A filesystem on which every path exists, reads a well-formed VCF
first line, and yields the PLINK magic bytes. -/
def fsAllOk : FS :=
  { ex := fun _ => true,
    readText := fun _ => .ok "##fileformat=VCFv4.2".toList,
    readBin3 := fun _ => .ok [0x6c, 0x1b, 0x01] }

/-- A filesystem on which every path exists but binary reads raise. -/
def fsBedUnreadable : FS :=
  { ex := fun _ => true,
    readText := fun _ => .ok [],
    readBin3 := fun _ => .error "Permission denied".toList }

/-- A filesystem on which every path exists but text reads raise an
exception outside the caught `OSError` class (e.g. a decode error). -/
def fsTextUndecodable : FS :=
  { ex := fun _ => true,
    readText := fun _ => .uncaught "invalid utf-8".toList,
    readBin3 := fun _ => .ok [0x6c, 0x1b, 0x01] }

/-! ### The extraction rule of `_parse_meta_line`, re-expressed directly
(for comparison with the source's find/slice computation) -/

/-- The value the source's contig branch extracts, expressed directly on
the text `rest` following `ID=`: up to the first `,`; with no comma, up
to the first `>`; with neither, up to but excluding the final character. -/
def contigVal (rest : List Char) : List Char :=
  if ',' ∈ rest then rest.takeWhile (fun c => c != ',')
  else if '>' ∈ rest then rest.takeWhile (fun c => c != '>')
  else rest.dropLast

/-- The value the source's INFO/FORMAT branches extract, expressed
directly on the text `rest` following `ID=`: up to the first `,`; with
no comma, up to but excluding the final character (there is no `>`
fallback in these branches). -/
def fieldVal (rest : List Char) : List Char :=
  if ',' ∈ rest then rest.takeWhile (fun c => c != ',')
  else rest.dropLast

/-- The text following the first occurrence of `ID=` in a line, when
that occurrence exists. -/
def idRestOf (l : List Char) : Option (List Char) :=
  (subFind "ID=".toList l).map (fun st => l.drop (st + 3))

/-- Identifiers a line contributes to `contigs` (zero or one). -/
def contigContrib (l : List Char) : List (List Char) :=
  if "##contig=".toList.isPrefixOf l then
    match idRestOf l with
    | none => []
    | some rest => if contigVal rest = [] then [] else [contigVal rest]
  else []

/-- Identifiers a line contributes to `info_fields` (zero or one). -/
def infoContrib (l : List Char) : List (List Char) :=
  if "##INFO=".toList.isPrefixOf l then
    match idRestOf l with
    | none => []
    | some rest => if fieldVal rest = [] then [] else [fieldVal rest]
  else []

/-- Identifiers a line contributes to `format_fields` (zero or one). -/
def formatContrib (l : List Char) : List (List Char) :=
  if "##FORMAT=".toList.isPrefixOf l then
    match idRestOf l with
    | none => []
    | some rest => if fieldVal rest = [] then [] else [fieldVal rest]
  else []

/-- A raw line whose stripped form begins with `##` (a meta-line). -/
def isMetaLine (l : List Char) : Bool :=
  "##".toList.isPrefixOf (pyStrip l)

/-- A raw line whose stripped form begins with `#CHROM`. -/
def isColHeaderLine (l : List Char) : Bool :=
  "#CHROM".toList.isPrefixOf (pyStrip l)

/-- A raw line counted towards `header_line_count` by the loop. -/
def isHeaderCounted (l : List Char) : Bool :=
  isMetaLine l || isColHeaderLine l

/-- A raw line counted towards `variant_count` by the loop: non-blank
after stripping and starting with neither `##` nor `#CHROM`. -/
def isDataLine (l : List Char) : Bool :=
  !isMetaLine l && !isColHeaderLine l && !(pyStrip l).isEmpty

/-- Modelled from the spec claim (C2): the number of non-blank lines
strictly after the column-header line (zero when there is none). -/
def specVariantCount (lines : List (List Char)) : Nat :=
  ((lines.dropWhile (fun l => !isColHeaderLine l)).drop 1).countP
    (fun l => !(pyStrip l).isEmpty)

/-- Modelled from the spec claim (C3): the count of meta-lines plus one
when a column-header line is present. -/
def specHeaderCount (lines : List (List Char)) : Nat :=
  lines.countP isMetaLine + (if lines.any isColHeaderLine then 1 else 0)

/-- Modelled from the spec claim (C1), including its "unescaped"
qualifier: locate `ID=`, then take the value up to the next unescaped
`,` (one not immediately preceded by a backslash) or, if no such comma
precedes a `>`, up to that `>`; `none` when neither bound exists or
`ID=` is absent. -/
def specExtractId (line : List Char) : Option (List Char) :=
  match subFind "ID=".toList line with
  | none => none
  | some st =>
      let rest := line.drop (st + 3)
      let commaIdx := (List.range rest.length).find? (fun j =>
        rest.getD j ' ' == ',' && (j == 0 || rest.getD (j - 1) ' ' != '\\'))
      let gtIdx := (List.range rest.length).find? (fun j =>
        rest.getD j ' ' == '>')
      match commaIdx, gtIdx with
      | some j, some k => if j < k then some (rest.take j) else some (rest.take k)
      | some j, none => some (rest.take j)
      | none, some k => some (rest.take k)
      | none, none => none

/-! ### Bridging lemmas: `subFind` / `pyFindFrom` / `pySlice` versus
`takeWhile` / `dropLast` / membership -/

lemma subFind_cons (sub : List Char) (x : Char) (s : List Char) :
    subFind sub (x :: s) =
      if sub.isPrefixOf (x :: s) then some 0
      else (subFind sub s).map (· + 1) := rfl

lemma single_isPrefixOf_false {c x : Char} (s : List Char) (h : c ≠ x) :
    ¬ [c].isPrefixOf (x :: s) = true := by
  rw [ List.isPrefixOf_iff_prefix]
  rintro ⟨t, ht⟩
  injection ht with h1 _
  exact h h1

lemma subFind_single_none_iff (c : Char) (s : List Char) :
    subFind [c] s = none ↔ c ∉ s := by
  induction s with
  | nil => simp [subFind]
  | cons x s ih =>
      by_cases hcx : c = x
      · subst hcx
        have hp : [c].isPrefixOf (c :: s) = true := by
          rw [ List.isPrefixOf_iff_prefix]; exact ⟨s, rfl⟩
        simp [subFind_cons, hp]
      · rw [subFind_cons, if_neg (single_isPrefixOf_false s hcx)]
        cases hs : subFind [c] s with
        | none =>
            simp only [hs, List.mem_cons, hcx] at ih ⊢
            simp only [hcx, false_or]
            simp
            exact ih.mp trivial
        | some j =>
            simp only [hs] at ih ⊢
            simp [List.mem_cons, hcx]
            by_contra h
            exact Option.noConfusion (ih.mpr h)

lemma subFind_single_some (c : Char) (s : List Char) (j : Nat)
    (h : subFind [c] s = some j) :
    j < s.length ∧ s.take j = s.takeWhile (fun x => x != c) := by
  induction s generalizing j with
  | nil => simp [subFind] at h
  | cons x s ih =>
      by_cases hcx : c = x
      · subst hcx
        have hp : [c].isPrefixOf (c :: s) = true := by
          rw [ List.isPrefixOf_iff_prefix]; exact ⟨s, rfl⟩
        rw [subFind_cons, if_pos hp] at h
        injection h with h0
        subst h0
        simp [List.takeWhile_cons]
      · rw [subFind_cons, if_neg (single_isPrefixOf_false s hcx)] at h
        rcases Option.map_eq_some'.mp h with ⟨j', hj', rfl⟩
        obtain ⟨hlt, htake⟩ := ih j' hj'
        refine ⟨by simpa using Nat.succ_lt_succ hlt, ?_⟩
        have hxc : (x != c) = true := by
          simp [bne]
          exact fun hh => hcx hh.symm
        rw [List.take_succ_cons, List.takeWhile_cons, if_pos hxc, htake]

lemma subFind_prefixOf (sub s : List Char) (j : Nat)
    (h : subFind sub s = some j) : sub <+: s.drop j := by
  induction s generalizing j with
  | nil =>
      by_cases hs : sub = []
      · subst hs
        simp [subFind] at h
        subst h
        simp
      · simp [subFind, hs] at h
  | cons x s ih =>
      by_cases hp : sub.isPrefixOf (x :: s)
      · rw [subFind_cons, if_pos hp] at h
        injection h with h0
        subst h0
        simpa using List.isPrefixOf_iff_prefix.mp hp
      · rw [subFind_cons, if_neg hp] at h
        rcases Option.map_eq_some'.mp h with ⟨j', hj', rfl⟩
        simpa [List.drop_succ_cons] using ih j' hj'

lemma subFind_single_append (c : Char) (xs ys : List Char) (hx : c ∉ xs) :
    subFind [c] (xs ++ ys) = (subFind [c] ys).map (· + xs.length) := by
  induction xs with
  | nil => cases h : subFind [c] ys <;> simp [h]
  | cons x xs ih =>
      have hcx : c ≠ x := fun h => hx (by simp [h])
      have hx' : c ∉ xs := fun h => hx (List.mem_cons_of_mem _ h)
      rw [List.cons_append, subFind_cons,
        if_neg (single_isPrefixOf_false (xs ++ ys) hcx), ih hx']
      cases h : subFind [c] ys <;> simp [h]
      omega

lemma pyFindFrom_zero_none (sub s : List Char) (h : subFind sub s = none) :
    pyFindFrom sub s 0 = -1 := by
  simp [pyFindFrom, h]

lemma pyFindFrom_zero_some (sub s : List Char) (j : Nat)
    (h : subFind sub s = some j) : pyFindFrom sub s 0 = (j : Int) := by
  simp [pyFindFrom, h]

lemma pySlice_neg_one (s : List Char) (a : Nat) :
    pySlice s a (-1) = (s.drop a).dropLast := by
  have h1 : pySlice s a (-1) = (s.take (s.length - 1)).drop a := by
    simp [pySlice]
  rw [h1, List.drop_take, List.dropLast_eq_take, List.length_drop]
  congr 1
  omega

lemma pySlice_nat (s : List Char) (a b : Nat) (hb : b ≤ s.length) :
    pySlice s a (b : Int) = (s.drop a).take (b - a) := by
  have h0 : ¬ ((b : Int) < 0) := by omega
  simp only [pySlice, h0, if_false, Int.toNat_natCast, min_eq_left hb,
    List.drop_take]


/-- The find/slice computation of `_parse_meta_line` equals the direct
`contigVal`/`fieldVal` description of the extracted value. -/
lemma extract_vals (l : List Char) (st : Nat)
    (hid : subFind "ID=".toList l = some st) :
    (pySlice l (st + 3)
        (if pyFindFrom ",".toList l st < 0 then pyFindFrom ">".toList l st
         else pyFindFrom ",".toList l st) = contigVal (l.drop (st + 3))) ∧
    (pySlice l (st + 3) (pyFindFrom ",".toList l st) =
      fieldVal (l.drop (st + 3))) := by
  obtain ⟨t, ht⟩ := subFind_prefixOf _ _ _ hid
  have hrest : l.drop (st + 3) = t := by
    have h3 : l.drop (st + 3) = (l.drop st).drop 3 := by
      rw [List.drop_drop]
    rw [h3, ← ht]
    exact List.drop_left "ID=".toList t
  have hlen : l.length - st = 3 + t.length := by
    have hl := congrArg List.length ht
    simp only [List.length_append, List.length_drop,
      show ("ID=".toList).length = 3 from rfl] at hl
    omega
  have hstle : st + 3 ≤ l.length := by omega
  have hfindc : pyFindFrom ",".toList l st =
      match subFind [','] t with
      | none => -1
      | some j => ((st + 3 + j : Nat) : Int) := by
    show (match subFind ",".toList (l.drop st) with
      | none => -1
      | some j => ((st + j : Nat) : Int)) = _
    rw [← ht, show (",".toList = [',']) from rfl,
      subFind_single_append ',' "ID=".toList t (by decide)]
    simp only [show ("ID=".toList).length = 3 from rfl]
    cases h : subFind [','] t <;> simp
    ring
  have hfindg : pyFindFrom ">".toList l st =
      match subFind ['>'] t with
      | none => -1
      | some j => ((st + 3 + j : Nat) : Int) := by
    show (match subFind ">".toList (l.drop st) with
      | none => -1
      | some j => ((st + j : Nat) : Int)) = _
    rw [← ht, show (">".toList = ['>']) from rfl,
      subFind_single_append '>' "ID=".toList t (by decide)]
    simp only [show ("ID=".toList).length = 3 from rfl]
    cases h : subFind ['>'] t <;> simp
    ring
  have hslice : ∀ j : Nat, subFind [','] t = some j ∨ subFind ['>'] t = some j →
      pySlice l (st + 3) ((st + 3 + j : Nat) : Int) = t.take j := by
    intro j hj
    have hjlt : j < t.length := by
      rcases hj with hj | hj
      · exact (subFind_single_some _ _ _ hj).1
      · exact (subFind_single_some _ _ _ hj).1
    rw [pySlice_nat l (st + 3) (st + 3 + j) (by omega), hrest]
    congr 1
    omega
  constructor
  · rw [hfindc]
    cases hc : subFind [','] t with
    | some j =>
        have hmem : ',' ∈ t := by
          by_contra hmem
          exact Option.noConfusion
            (hc ▸ (subFind_single_none_iff ',' t).mpr hmem)
        have h0 : ¬ (((st + 3 + j : Nat) : Int) < 0) := by omega
        rw [if_neg h0, hslice j (Or.inl hc), hrest, contigVal, if_pos hmem,
          (subFind_single_some ',' t j hc).2]
    | none =>
        have hmem : ',' ∉ t := (subFind_single_none_iff ',' t).mp hc
        rw [if_pos (by omega : (-1 : Int) < 0), hfindg]
        cases hg : subFind ['>'] t with
        | some k =>
            have hgmem : '>' ∈ t := by
              by_contra hgmem
              exact Option.noConfusion
                (hg ▸ (subFind_single_none_iff '>' t).mpr hgmem)
            rw [hslice k (Or.inr hg), hrest, contigVal, if_neg hmem,
              if_pos hgmem, (subFind_single_some '>' t k hg).2]
        | none =>
            have hgmem : '>' ∉ t := (subFind_single_none_iff '>' t).mp hg
            rw [pySlice_neg_one, hrest, contigVal, if_neg hmem, if_neg hgmem]
  · rw [hfindc]
    cases hc : subFind [','] t with
    | some j =>
        have hmem : ',' ∈ t := by
          by_contra hmem
          exact Option.noConfusion
            (hc ▸ (subFind_single_none_iff ',' t).mpr hmem)
        rw [hslice j (Or.inl hc), hrest, fieldVal, if_pos hmem,
          (subFind_single_some ',' t j hc).2]
    | none =>
        have hmem : ',' ∉ t := (subFind_single_none_iff ',' t).mp hc
        rw [pySlice_neg_one, hrest, fieldVal, if_neg hmem]

lemma prefix_exclusive {a b l : List Char} (ha : a.isPrefixOf l = true)
    (hab : ¬ a <+: b) (hba : ¬ b <+: a) : ¬ b.isPrefixOf l = true := by
  rw [ List.isPrefixOf_iff_prefix] at ha ⊢
  intro hb
  rcases List.prefix_or_prefix_of_prefix ha hb with h | h
  · exact hab h
  · exact hba h

lemma not_long_prefix_of_not_short {shrt lng l : List Char}
    (hsl : shrt <+: lng) (h : ¬ shrt.isPrefixOf l = true) :
    ¬ lng.isPrefixOf l = true := by
  rw [ List.isPrefixOf_iff_prefix] at *
  exact fun hl => h (hsl.trans hl)

/-- Theorem: `_parse_meta_line` appends exactly the contribution described by
`contigContrib`/`infoContrib`/`formatContrib` and changes nothing else. -/
theorem parse_meta_line_spec (l : List Char) (r : InspectionResult) :
    parse_meta_line l r =
      { r with contigs := r.contigs ++ contigContrib l,
               info_fields := r.info_fields ++ infoContrib l,
               format_fields := r.format_fields ++ formatContrib l } := by
  by_cases hc : "##contig=".toList.isPrefixOf l
  · have hni : ¬ "##INFO=".toList.isPrefixOf l = true :=
      prefix_exclusive hc (by decide) (by decide)
    have hnf : ¬ "##FORMAT=".toList.isPrefixOf l = true :=
      prefix_exclusive hc (by decide) (by decide)
    rcases hid : subFind "ID=".toList l with _ | st
    · have hstart := pyFindFrom_zero_none "ID=".toList l hid
      simp only [parse_meta_line, hc, if_true, hstart, contigContrib,
        infoContrib, formatContrib, idRestOf, hid, Option.map_none',
        if_neg hni, if_neg hnf]
      norm_num
    · have hstart := pyFindFrom_zero_some "ID=".toList l st hid
      have hpos : pyFindFrom "ID=".toList l 0 ≥ 0 := by
        rw [hstart]; exact Int.natCast_nonneg st
      have hev := (extract_vals l st hid).1
      simp only [parse_meta_line, hc, if_true, if_pos hpos, hstart,
        Int.toNat_natCast, hev, contigContrib, infoContrib, formatContrib,
        idRestOf, hid, Option.map_some', if_neg hni, if_neg hnf]
      by_cases hv : contigVal (l.drop (st + 3)) = [] <;> simp [hv]
  · by_cases hi : "##INFO=".toList.isPrefixOf l
    · have hnf : ¬ "##FORMAT=".toList.isPrefixOf l = true :=
        prefix_exclusive hi (by decide) (by decide)
      rcases hid : subFind "ID=".toList l with _ | st
      · have hstart := pyFindFrom_zero_none "ID=".toList l hid
        simp only [parse_meta_line, hc, if_false, hi, if_true, hstart,
          contigContrib, infoContrib, formatContrib, idRestOf, hid,
          Option.map_none', if_neg hnf]
        norm_num
      · have hstart := pyFindFrom_zero_some "ID=".toList l st hid
        have hpos : pyFindFrom "ID=".toList l 0 ≥ 0 := by
          rw [hstart]; exact Int.natCast_nonneg st
        have hev := (extract_vals l st hid).2
        simp only [parse_meta_line, hc, if_false, hi, if_true, if_pos hpos,
          hstart, Int.toNat_natCast, hev, contigContrib, infoContrib,
          formatContrib, idRestOf, hid, Option.map_some', if_neg hnf]
        by_cases hv : fieldVal (l.drop (st + 3)) = [] <;> simp [hv, hc]
    · by_cases hf : "##FORMAT=".toList.isPrefixOf l
      · rcases hid : subFind "ID=".toList l with _ | st
        · have hstart := pyFindFrom_zero_none "ID=".toList l hid
          simp only [parse_meta_line, hc, hi, if_false, hf, if_true, hstart,
            contigContrib, infoContrib, formatContrib, idRestOf, hid,
            Option.map_none']
          norm_num
        · have hstart := pyFindFrom_zero_some "ID=".toList l st hid
          have hpos : pyFindFrom "ID=".toList l 0 ≥ 0 := by
            rw [hstart]; exact Int.natCast_nonneg st
          have hev := (extract_vals l st hid).2
          simp only [parse_meta_line, hc, hi, if_false, hf, if_true,
            if_pos hpos, hstart, Int.toNat_natCast, hev, contigContrib,
            infoContrib, formatContrib, idRestOf, hid, Option.map_some']
          by_cases hv : fieldVal (l.drop (st + 3)) = [] <;> simp [hv, hc, hi]
      · simp only [parse_meta_line, hc, hi, hf, if_false, contigContrib,
          infoContrib, formatContrib]
        simp [hc, hi, hf]

lemma parse_meta_line_contigs (l : List Char) (r : InspectionResult) :
    (parse_meta_line l r).contigs = r.contigs ++ contigContrib l := by
  rw [parse_meta_line_spec]

lemma parse_meta_line_info (l : List Char) (r : InspectionResult) :
    (parse_meta_line l r).info_fields = r.info_fields ++ infoContrib l := by
  rw [parse_meta_line_spec]

lemma parse_meta_line_format (l : List Char) (r : InspectionResult) :
    (parse_meta_line l r).format_fields =
      r.format_fields ++ formatContrib l := by
  rw [parse_meta_line_spec]

lemma parse_meta_line_counts (l : List Char) (r : InspectionResult) :
    (parse_meta_line l r).variant_count = r.variant_count ∧
    (parse_meta_line l r).header_line_count = r.header_line_count ∧
    (parse_meta_line l r).sample_count = r.sample_count := by
  rw [parse_meta_line_spec]
  exact ⟨rfl, rfl, rfl⟩

lemma meta_not_chrom {l : List Char}
    (h : "##".toList.isPrefixOf (pyStrip l) = true) :
    ¬ "#CHROM".toList.isPrefixOf (pyStrip l) = true :=
  prefix_exclusive h (by decide) (by decide)

lemma bool_eq_false {b : Bool} (h : ¬ b = true) : b = false := by
  cases b
  · rfl
  · exact absurd rfl h

lemma isEmpty_false_of_ne {l : List Char} (h : l ≠ []) : l.isEmpty = false := by
  cases l
  · exact absurd rfl h
  · rfl

/-- Branch equation: a meta-line goes through `_parse_meta_line` after the
header counter increment. -/
lemma inspectLine_meta (r : InspectionResult) (l : List Char)
    (h : "##".toList.isPrefixOf (pyStrip l) = true) :
    inspectLine r l = parse_meta_line (pyStrip l)
      { r with header_line_count := r.header_line_count + 1 } := by
  unfold inspectLine
  rw [if_pos h]

/-- Branch equation: the column-header branch. -/
lemma inspectLine_chrom (r : InspectionResult) (l : List Char)
    (h1 : ¬ "##".toList.isPrefixOf (pyStrip l) = true)
    (h2 : "#CHROM".toList.isPrefixOf (pyStrip l) = true) :
    inspectLine r l =
      (if 9 < (pySplit '\t' (pyStrip l)).length
       then { r with header_line_count := r.header_line_count + 1,
                     sample_count := (pySplit '\t' (pyStrip l)).length - 9 }
       else { r with header_line_count := r.header_line_count + 1 }) := by
  unfold inspectLine
  rw [if_neg h1, if_pos h2]

/-- Branch equation: a non-blank data line. -/
lemma inspectLine_data (r : InspectionResult) (l : List Char)
    (h1 : ¬ "##".toList.isPrefixOf (pyStrip l) = true)
    (h2 : ¬ "#CHROM".toList.isPrefixOf (pyStrip l) = true)
    (h3 : pyStrip l ≠ []) :
    inspectLine r l = { r with variant_count := r.variant_count + 1 } := by
  unfold inspectLine
  rw [if_neg h1, if_neg h2, if_pos h3]

/-- Branch equation: a blank line is ignored. -/
lemma inspectLine_blank (r : InspectionResult) (l : List Char)
    (h1 : ¬ "##".toList.isPrefixOf (pyStrip l) = true)
    (h2 : ¬ "#CHROM".toList.isPrefixOf (pyStrip l) = true)
    (h3 : pyStrip l = []) :
    inspectLine r l = r := by
  unfold inspectLine
  rw [if_neg h1, if_neg h2, if_neg (by simp [h3])]

lemma inspectLine_variant (r : InspectionResult) (l : List Char) :
    (inspectLine r l).variant_count =
      r.variant_count + (if isDataLine l then 1 else 0) := by
  by_cases h1 : "##".toList.isPrefixOf (pyStrip l)
  · have hd : isDataLine l = false := by
      unfold isDataLine isMetaLine
      rw [h1]
      rfl
    rw [inspectLine_meta r l h1, (parse_meta_line_counts _ _).1, hd]
    simp
  · by_cases h2 : "#CHROM".toList.isPrefixOf (pyStrip l)
    · have hd : isDataLine l = false := by
        unfold isDataLine isColHeaderLine
        rw [h2]
        simp
      rw [inspectLine_chrom r l h1 h2, hd]
      split
      all_goals simp
    · by_cases h3 : pyStrip l = []
      · have hd : isDataLine l = false := by
          unfold isDataLine
          rw [h3]
          simp
        rw [inspectLine_blank r l h1 h2 h3, hd]
        simp
      · have hd : isDataLine l = true := by
          unfold isDataLine isMetaLine isColHeaderLine
          rw [bool_eq_false h1, bool_eq_false h2, isEmpty_false_of_ne h3]
          rfl
        rw [inspectLine_data r l h1 h2 h3, hd]
        simp

lemma inspectLine_header (r : InspectionResult) (l : List Char) :
    (inspectLine r l).header_line_count =
      r.header_line_count + (if isHeaderCounted l then 1 else 0) := by
  by_cases h1 : "##".toList.isPrefixOf (pyStrip l)
  · have hh : isHeaderCounted l = true := by
      unfold isHeaderCounted isMetaLine
      rw [h1]
      rfl
    rw [inspectLine_meta r l h1, (parse_meta_line_counts _ _).2.1, hh]
    simp
  · by_cases h2 : "#CHROM".toList.isPrefixOf (pyStrip l)
    · have hh : isHeaderCounted l = true := by
        unfold isHeaderCounted isColHeaderLine
        rw [h2]
        simp
      rw [inspectLine_chrom r l h1 h2, hh]
      split
      all_goals rfl
    · have hh : isHeaderCounted l = false := by
        unfold isHeaderCounted isMetaLine isColHeaderLine
        rw [bool_eq_false h1, bool_eq_false h2]
        rfl
      by_cases h3 : pyStrip l = []
      · rw [inspectLine_blank r l h1 h2 h3, hh]
        simp
      · rw [inspectLine_data r l h1 h2 h3, hh]
        simp

lemma inspectLine_contigs (r : InspectionResult) (l : List Char) :
    (inspectLine r l).contigs = r.contigs ++ contigContrib (pyStrip l) := by
  by_cases h1 : "##".toList.isPrefixOf (pyStrip l)
  · rw [inspectLine_meta r l h1, parse_meta_line_contigs]
  · have hnc : ¬ "##contig=".toList.isPrefixOf (pyStrip l) = true :=
      not_long_prefix_of_not_short (by decide) h1
    have hz : contigContrib (pyStrip l) = [] := by
      unfold contigContrib
      rw [if_neg hnc]
    rw [hz, List.append_nil]
    by_cases h2 : "#CHROM".toList.isPrefixOf (pyStrip l)
    · rw [inspectLine_chrom r l h1 h2]
      split
      all_goals rfl
    · by_cases h3 : pyStrip l = []
      · rw [inspectLine_blank r l h1 h2 h3]
      · rw [inspectLine_data r l h1 h2 h3]

lemma inspectLine_info (r : InspectionResult) (l : List Char) :
    (inspectLine r l).info_fields =
      r.info_fields ++ infoContrib (pyStrip l) := by
  by_cases h1 : "##".toList.isPrefixOf (pyStrip l)
  · rw [inspectLine_meta r l h1, parse_meta_line_info]
  · have hni : ¬ "##INFO=".toList.isPrefixOf (pyStrip l) = true :=
      not_long_prefix_of_not_short (by decide) h1
    have hz : infoContrib (pyStrip l) = [] := by
      unfold infoContrib
      rw [if_neg hni]
    rw [hz, List.append_nil]
    by_cases h2 : "#CHROM".toList.isPrefixOf (pyStrip l)
    · rw [inspectLine_chrom r l h1 h2]
      split
      all_goals rfl
    · by_cases h3 : pyStrip l = []
      · rw [inspectLine_blank r l h1 h2 h3]
      · rw [inspectLine_data r l h1 h2 h3]

lemma inspectLine_format (r : InspectionResult) (l : List Char) :
    (inspectLine r l).format_fields =
      r.format_fields ++ formatContrib (pyStrip l) := by
  by_cases h1 : "##".toList.isPrefixOf (pyStrip l)
  · rw [inspectLine_meta r l h1, parse_meta_line_format]
  · have hnf : ¬ "##FORMAT=".toList.isPrefixOf (pyStrip l) = true :=
      not_long_prefix_of_not_short (by decide) h1
    have hz : formatContrib (pyStrip l) = [] := by
      unfold formatContrib
      rw [if_neg hnf]
    rw [hz, List.append_nil]
    by_cases h2 : "#CHROM".toList.isPrefixOf (pyStrip l)
    · rw [inspectLine_chrom r l h1 h2]
      split
      all_goals rfl
    · by_cases h3 : pyStrip l = []
      · rw [inspectLine_blank r l h1 h2 h3]
      · rw [inspectLine_data r l h1 h2 h3]

lemma inspectLine_sample_not_chrom (r : InspectionResult) (l : List Char)
    (h : ¬ "#CHROM".toList.isPrefixOf (pyStrip l) = true) :
    (inspectLine r l).sample_count = r.sample_count := by
  by_cases h1 : "##".toList.isPrefixOf (pyStrip l)
  · rw [inspectLine_meta r l h1, (parse_meta_line_counts _ _).2.2]
  · by_cases h3 : pyStrip l = []
    · rw [inspectLine_blank r l h1 h h3]
    · rw [inspectLine_data r l h1 h h3]

lemma inspectLine_sample_chrom (r : InspectionResult) (l : List Char)
    (h : "#CHROM".toList.isPrefixOf (pyStrip l) = true) :
    (inspectLine r l).sample_count =
      if 9 < (pySplit '\t' (pyStrip l)).length
      then (pySplit '\t' (pyStrip l)).length - 9 else r.sample_count := by
  have h1 : ¬ "##".toList.isPrefixOf (pyStrip l) = true := by
    intro hm
    exact meta_not_chrom hm h
  rw [inspectLine_chrom r l h1 h]
  split
  all_goals rfl

lemma foldl_inspect_variant (lines : List (List Char)) (r : InspectionResult) :
    (lines.foldl inspectLine r).variant_count =
      r.variant_count + lines.countP isDataLine := by
  induction lines generalizing r with
  | nil => simp
  | cons l ls ih =>
      rw [List.foldl_cons, ih, inspectLine_variant, List.countP_cons]
      cases h : isDataLine l
      all_goals simp [h]
      all_goals omega

lemma foldl_inspect_header (lines : List (List Char)) (r : InspectionResult) :
    (lines.foldl inspectLine r).header_line_count =
      r.header_line_count + lines.countP isHeaderCounted := by
  induction lines generalizing r with
  | nil => simp
  | cons l ls ih =>
      rw [List.foldl_cons, ih, inspectLine_header, List.countP_cons]
      cases h : isHeaderCounted l
      all_goals simp [h]
      all_goals omega

lemma foldl_inspect_contigs (lines : List (List Char)) (r : InspectionResult) :
    (lines.foldl inspectLine r).contigs =
      r.contigs ++ (lines.map (fun l => contigContrib (pyStrip l))).flatten := by
  induction lines generalizing r with
  | nil => simp
  | cons l ls ih =>
      rw [List.foldl_cons, ih, inspectLine_contigs]
      simp [List.append_assoc]

lemma foldl_inspect_info (lines : List (List Char)) (r : InspectionResult) :
    (lines.foldl inspectLine r).info_fields =
      r.info_fields ++
        (lines.map (fun l => infoContrib (pyStrip l))).flatten := by
  induction lines generalizing r with
  | nil => simp
  | cons l ls ih =>
      rw [List.foldl_cons, ih, inspectLine_info]
      simp [List.append_assoc]

lemma foldl_inspect_format (lines : List (List Char)) (r : InspectionResult) :
    (lines.foldl inspectLine r).format_fields =
      r.format_fields ++
        (lines.map (fun l => formatContrib (pyStrip l))).flatten := by
  induction lines generalizing r with
  | nil => simp
  | cons l ls ih =>
      rw [List.foldl_cons, ih, inspectLine_format]
      simp [List.append_assoc]

lemma foldl_inspect_sample_no_chrom (lines : List (List Char))
    (r : InspectionResult)
    (h : ∀ l ∈ lines, ¬ "#CHROM".toList.isPrefixOf (pyStrip l) = true) :
    (lines.foldl inspectLine r).sample_count = r.sample_count := by
  induction lines generalizing r with
  | nil => simp
  | cons l ls ih =>
      rw [List.foldl_cons, ih _ (fun x hx => h x (List.mem_cons_of_mem _ hx)),
        inspectLine_sample_not_chrom _ _ (h l (List.mem_cons_self _ _))]

example : pyStrip "  a\tb \n".toList = "a\tb".toList := by decide
example : pySplit '\t' "a\tb\t".toList = ["a".toList, "b".toList, []] := by decide
example : pyFindFrom "ID=".toList "##contig=<ID=7,length=5>".toList 0 = 10 := by
  decide
example :
    (inspectLines [] ["##contig=<ID=7,length=5>".toList]).contigs =
      ["7".toList] := by decide
example :
    (inspectLines []
      ["##fileformat=VCFv4.2".toList,
       "#CHROM\tPOS\tID\tREF\tALT\tQUAL\tFILTER\tINFO\tFORMAT\tS1\tS2\tS3".toList,
       "1\t100\trs1\tA\tG\t.\t.\t.\tGT\t0/1\t0/0\t1/1".toList]) =
    { file_path := [], sample_count := 3, variant_count := 1, contigs := [],
      info_fields := [], format_fields := [], header_line_count := 2 } := by
  decide

/-! ### Validator lemmas -/

/-- Evaluation of the text check on a missing path. -/
lemma validate_vcf_not_found (fs : FS) (p : List Char)
    (hex : fs.ex p = false) :
    validate_vcf fs p = .ok
      { files_checked := 1, valid := 0, invalid := [msgNotFound p],
        warnings := [] } := by
  unfold validate_vcf
  rw [if_pos (show (!fs.ex p) = true by rw [hex]; rfl)]

/-- Evaluation of the text check on a readable line with good signature. -/
lemma validate_vcf_good_sig (fs : FS) (p line : List Char)
    (hex : fs.ex p = true) (hrd : fs.readText p = .ok line)
    (hsig : VCF_HEADER.isPrefixOf (pyStrip line) = true) :
    validate_vcf fs p = .ok
      { files_checked := 1, valid := 1, invalid := [], warnings := [] } := by
  unfold validate_vcf
  rw [if_neg (show ¬ (!fs.ex p) = true by rw [hex]; simp), hrd]
  simp [hsig]

/-- Evaluation of the text check on a readable line with bad signature. -/
lemma validate_vcf_bad_sig (fs : FS) (p line : List Char)
    (hex : fs.ex p = true) (hrd : fs.readText p = .ok line)
    (hsig : ¬ VCF_HEADER.isPrefixOf (pyStrip line) = true) :
    validate_vcf fs p = .ok
      { files_checked := 1, valid := 0, invalid := [msgMissingHeader p],
        warnings := [] } := by
  unfold validate_vcf
  rw [if_neg (show ¬ (!fs.ex p) = true by rw [hex]; simp), hrd]
  simp [hsig]

/-- Evaluation of the text check when the read raises a caught
`OSError`-class exception: converted into a violation. -/
lemma validate_vcf_oserr (fs : FS) (p e : List Char)
    (hex : fs.ex p = true) (hrd : fs.readText p = .oserr e) :
    validate_vcf fs p = .ok
      { files_checked := 1, valid := 0, invalid := [msgReadError e],
        warnings := [] } := by
  unfold validate_vcf
  rw [if_neg (show ¬ (!fs.ex p) = true by rw [hex]; simp), hrd]

/-- Evaluation of the text check when the read raises outside the
caught class: the exception propagates. -/
lemma validate_vcf_uncaught (fs : FS) (p e : List Char)
    (hex : fs.ex p = true) (hrd : fs.readText p = .uncaught e) :
    validate_vcf fs p = .error e := by
  unfold validate_vcf
  rw [if_neg (show ¬ (!fs.ex p) = true by rw [hex]; simp), hrd]

lemma combineReports_empty_left (r : ValidationReport) :
    combineReports {} r = r := by
  cases r
  simp [combineReports]

lemma combineReports_empty_right (r : ValidationReport) :
    combineReports r {} = r := by
  cases r
  simp [combineReports]

/-- Evaluation of the triad check when the primary file is missing. -/
lemma validate_plink_binary_bed_missing (fs : FS) (pfx : List Char)
    (hbed : fs.ex (bedPath pfx) = false) :
    validate_plink_binary fs pfx = .ok
      { files_checked := 3,
        valid := (if fs.ex (bimPath pfx) = true then 1 else 0) +
          (if fs.ex (famPath pfx) = true then 1 else 0),
        invalid :=
          [msgMissingFile "bed".toList (bedPath pfx)] ++
          (if fs.ex (bimPath pfx) = true then []
           else [msgMissingFile "bim".toList (bimPath pfx)]) ++
          (if fs.ex (famPath pfx) = true then []
           else [msgMissingFile "fam".toList (famPath pfx)]),
        warnings := [] } := by
  unfold validate_plink_binary
  cases hbim : fs.ex (bimPath pfx) <;> cases hfam : fs.ex (famPath pfx) <;>
    simp [hbed, hbim, hfam]

/-- Evaluation of the triad check when the primary file exists and its
first three bytes are read successfully. -/
lemma validate_plink_binary_bed_ok (fs : FS) (pfx : List Char)
    (bs : List Nat) (hbed : fs.ex (bedPath pfx) = true)
    (hok : fs.readBin3 (bedPath pfx) = .ok bs) :
    validate_plink_binary fs pfx = .ok
      { files_checked := 3,
        valid := (if bs = PLINK_BED_MAGIC then 1 else 0) +
          ((if fs.ex (bimPath pfx) = true then 1 else 0) +
           (if fs.ex (famPath pfx) = true then 1 else 0)),
        invalid :=
          ((if fs.ex (bimPath pfx) = true then ([] : List (List Char))
            else [msgMissingFile "bim".toList (bimPath pfx)]) ++
           (if fs.ex (famPath pfx) = true then []
            else [msgMissingFile "fam".toList (famPath pfx)])) ++
          (if bs = PLINK_BED_MAGIC then [] else [msgBadMagic (bedPath pfx)]),
        warnings := [] } := by
  unfold validate_plink_binary
  cases hbim : fs.ex (bimPath pfx) <;> cases hfam : fs.ex (famPath pfx) <;>
    by_cases hbs : bs = PLINK_BED_MAGIC <;>
      simp [hbed, hbim, hfam, hbs, hok]

/-- Evaluation of the triad check when reading the primary file's magic
bytes raises: the exception propagates. -/
lemma validate_plink_binary_bed_err (fs : FS) (pfx : List Char)
    (e : List Char) (hbed : fs.ex (bedPath pfx) = true)
    (herr : fs.readBin3 (bedPath pfx) = .error e) :
    validate_plink_binary fs pfx = .error e := by
  unfold validate_plink_binary
  rw [if_pos hbed, herr]

/-- The batch loop on a sub-report list: aggregation is summation of the
counters and concatenation of the sequences, onto any accumulator. -/
lemma validateBatchGo_reports (fs : FS) (paths : List (List Char))
    (reps : List ValidationReport) (h : subReports fs paths = .ok reps) :
    ∀ acc, validateBatchGo fs paths acc = .ok
      { files_checked :=
          acc.files_checked + (reps.map (fun r => r.files_checked)).sum,
        valid := acc.valid + (reps.map (fun r => r.valid)).sum,
        invalid := acc.invalid ++ (reps.map (fun r => r.invalid)).flatten,
        warnings :=
          acc.warnings ++ (reps.map (fun r => r.warnings)).flatten } := by
  induction paths generalizing reps with
  | nil =>
      intro acc
      unfold subReports at h
      injection h with h
      subst h
      unfold validateBatchGo
      cases acc
      simp
  | cons p ps ih =>
      intro acc
      unfold subReports at h
      cases hsub : (if TEXT_SUFFIXES.contains (pySuffix p) then
          validate_vcf fs p else validate_plink_binary fs p) with
      | error e =>
          rw [hsub] at h
          simp at h
      | ok rep =>
          rw [hsub] at h
          cases hrest : subReports fs ps with
          | error e =>
              rw [hrest] at h
              simp at h
          | ok reps' =>
              rw [hrest] at h
              injection h with h
              subst h
              unfold validateBatchGo
              rw [hsub]
              show validateBatchGo fs ps (combineReports acc rep) = _
              rw [ih reps' hrest (combineReports acc rep)]
              congr 1
              simp [combineReports, Nat.add_assoc, List.append_assoc]

/-! ## Claim theorems -/

/-- C1, counterexample.  On the structured meta-line
`##contig=<ID=a\,b>` the identifier the code appends is `a\` (cut at the
first comma, escaped or not), while the spec's extraction rule — take the
value up to the next *unescaped* `,` or, if none precedes a `>`, up to
that `>` — yields `a\,b`; the two differ, so the claim as stated is
false at this input. -/
theorem c1_extraction_counterexample :
    (inspectLines [] ["##contig=<ID=a\\,b>".toList]).contigs =
      ["a\\".toList] ∧
    specExtractId (pyStrip "##contig=<ID=a\\,b>".toList) =
      some "a\\,b".toList ∧
    ("a\\".toList : List Char) ≠ "a\\,b".toList := by
  refine ⟨by decide, by decide, by decide⟩

/-- C1, amended.  For every structured meta-line, the identifier
`_parse_meta_line` appends is the text after the first `ID=` cut at the
first `,` at-or-after it, whether escaped or not; when no comma exists,
contig lines fall back to the first `>` and then to dropping only the
final character, while INFO/FORMAT lines fall back directly to dropping
the final character; empty values are skipped and nothing else changes
(`contigVal`/`fieldVal` state these cuts as `takeWhile`/`dropLast`). -/
theorem c1_extraction_rule (l : List Char) (r : InspectionResult) :
    ("##contig=".toList.isPrefixOf l = true →
      parse_meta_line l r =
        { r with contigs := r.contigs ++ contigContrib l }) ∧
    ("##INFO=".toList.isPrefixOf l = true →
      parse_meta_line l r =
        { r with info_fields := r.info_fields ++ infoContrib l }) ∧
    ("##FORMAT=".toList.isPrefixOf l = true →
      parse_meta_line l r =
        { r with format_fields := r.format_fields ++ formatContrib l }) := by
  refine ⟨fun hc => ?_, fun hi => ?_, fun hf => ?_⟩
  · have hni : infoContrib l = [] := by
      unfold infoContrib
      rw [if_neg (prefix_exclusive hc (by decide) (by decide))]
    have hnf : formatContrib l = [] := by
      unfold formatContrib
      rw [if_neg (prefix_exclusive hc (by decide) (by decide))]
    rw [parse_meta_line_spec, hni, hnf, List.append_nil, List.append_nil]
  · have hnc : contigContrib l = [] := by
      unfold contigContrib
      rw [if_neg (prefix_exclusive hi (by decide) (by decide))]
    have hnf : formatContrib l = [] := by
      unfold formatContrib
      rw [if_neg (prefix_exclusive hi (by decide) (by decide))]
    rw [parse_meta_line_spec, hnc, hnf, List.append_nil, List.append_nil]
  · have hnc : contigContrib l = [] := by
      unfold contigContrib
      rw [if_neg (prefix_exclusive hf (by decide) (by decide))]
    have hni : infoContrib l = [] := by
      unfold infoContrib
      rw [if_neg (prefix_exclusive hf (by decide) (by decide))]
    rw [parse_meta_line_spec, hnc, hni, List.append_nil, List.append_nil]

/-- Witness for C1's amended theorem at a concrete contig line. -/
theorem c1_extraction_rule_witness :
    parse_meta_line "##contig=<ID=7,length=5>".toList (initResult []) =
      { initResult [] with contigs := ["7".toList] } := by
  have h := (c1_extraction_rule "##contig=<ID=7,length=5>".toList
    (initResult [])).1 (by decide)
  exact h.trans (by decide)

/-- C2, counterexample.  A non-blank line *before* the column-header line
is still counted by the code, so `variant_count` (= 1 here) differs from
the number of non-blank lines strictly after the column-header line
(= 0 here). -/
theorem c2_variant_count_counterexample :
    (inspectLines []
        ["ACGT".toList,
         "#CHROM\tPOS\tID\tREF\tALT\tQUAL\tFILTER\tINFO\tFORMAT".toList
        ]).variant_count = 1 ∧
    specVariantCount
        ["ACGT".toList,
         "#CHROM\tPOS\tID\tREF\tALT\tQUAL\tFILTER\tINFO\tFORMAT".toList] = 0 ∧
    (1 : Nat) ≠ 0 := by
  refine ⟨by decide, by decide, by decide⟩

/-- C2, amended.  For every input file, `variant_count` equals the number
of lines that are non-blank after stripping and start with neither `##`
nor `#CHROM` — regardless of their position relative to the column-header
line. -/
theorem c2_variant_count (path : List Char) (lines : List (List Char)) :
    (inspectLines path lines).variant_count = lines.countP isDataLine := by
  unfold inspectLines
  rw [foldl_inspect_variant]
  simp [initResult]

/-- C3, counterexample.  A file with two `#CHROM` lines: the code counts
both into `header_line_count` (= 2), while the claimed formula
`(count of meta-lines) + (1 if a column-header line is present else 0)`
gives 1. -/
theorem c3_header_count_counterexample :
    (inspectLines []
        ["#CHROM\tPOS".toList, "#CHROM\tPOS".toList]).header_line_count = 2 ∧
    specHeaderCount ["#CHROM\tPOS".toList, "#CHROM\tPOS".toList] = 1 ∧
    (2 : Nat) ≠ 1 := by
  refine ⟨by decide, by decide, by decide⟩

/-- C3, amended.  For every input file, `header_line_count` equals the
count of meta-lines plus the count of lines starting with `#CHROM`
(each occurrence counted, not capped at one). -/
theorem c3_header_count (path : List Char) (lines : List (List Char)) :
    (inspectLines path lines).header_line_count =
      lines.countP isMetaLine + lines.countP isColHeaderLine := by
  unfold inspectLines
  rw [foldl_inspect_header]
  have hsplit : ∀ ls : List (List Char),
      ls.countP isHeaderCounted =
        ls.countP isMetaLine + ls.countP isColHeaderLine := by
    intro ls
    induction ls with
    | nil => rfl
    | cons l ls ih =>
        rw [List.countP_cons, List.countP_cons, List.countP_cons, ih]
        by_cases hm : isMetaLine l = true
        · have hc : isColHeaderLine l = false :=
            bool_eq_false (meta_not_chrom hm)
          have hh : isHeaderCounted l = true := by
            unfold isHeaderCounted
            rw [hm]
            rfl
          simp [hh, hm, hc]
          omega
        · have hm' : isMetaLine l = false := bool_eq_false hm
          have hh : isHeaderCounted l = isColHeaderLine l := by
            unfold isHeaderCounted
            rw [hm']
            simp
          cases hc : isColHeaderLine l
          all_goals simp [hh, hm', hc]
          all_goals omega
  rw [hsplit]
  simp [initResult]

/-- C6.  For a file whose unique column-header line has `n` tab-separated
columns, `inspect` reports `sample_count = max 0 (n - 9)`; in particular
`n = 9` gives 0. -/
theorem c6_sample_count (path : List Char) (pre post : List (List Char))
    (hline : List Char)
    (hpre : ∀ l ∈ pre, ¬ "#CHROM".toList.isPrefixOf (pyStrip l) = true)
    (hpost : ∀ l ∈ post, ¬ "#CHROM".toList.isPrefixOf (pyStrip l) = true)
    (hh : "#CHROM".toList.isPrefixOf (pyStrip hline) = true) :
    ((inspectLines path (pre ++ hline :: post)).sample_count : Int) =
      max 0 (((pySplit '\t' (pyStrip hline)).length : Int) - 9) := by
  unfold inspectLines
  rw [List.foldl_append, List.foldl_cons,
    foldl_inspect_sample_no_chrom post _ hpost,
    inspectLine_sample_chrom _ _ hh]
  have hpre0 : (pre.foldl inspectLine (initResult path)).sample_count = 0 := by
    rw [foldl_inspect_sample_no_chrom pre _ hpre]
    rfl
  rw [hpre0]
  by_cases h9 : 9 < (pySplit '\t' (pyStrip hline)).length
  · rw [if_pos h9, max_eq_right (by omega)]
    omega
  · rw [if_neg h9, max_eq_left (by omega)]
    rfl

/-- Witness for C6 at a 12-column header line (3 samples) on its own. -/
theorem c6_sample_count_witness :
    ((inspectLines []
        ["#CHROM\tPOS\tID\tREF\tALT\tQUAL\tFILTER\tINFO\tFORMAT\tS1\tS2\tS3".toList
        ]).sample_count : Int) = 3 :=
  (c6_sample_count [] [] []
    "#CHROM\tPOS\tID\tREF\tALT\tQUAL\tFILTER\tINFO\tFORMAT\tS1\tS2\tS3".toList
    (fun l hl => absurd hl (List.not_mem_nil l))
    (fun l hl => absurd hl (List.not_mem_nil l))
    (by decide)).trans (by decide)

/-- C8.  `inspect` is all-or-nothing: an unopenable path yields exactly
an I/O failure, a stream whose decoding fails yields exactly a decode
failure (with any partially accumulated summary discarded), and a
successful result arises only from a fully decoded stream and is the
full fold over its lines. -/
theorem c8_inspect_all_or_nothing (path : List Char) (src : InspectSource) :
    (∀ m, src = .openFails m → inspect path src = .error (.ioFailure m)) ∧
    (∀ ls m, src = .stream ls (some m) →
      inspect path src = .error (.decodeFailure m)) ∧
    (∀ r, inspect path src = .ok r →
      ∃ ls, src = .stream ls none ∧ r = inspectLines path ls) := by
  refine ⟨?_, ?_, ?_⟩
  · rintro m rfl
    rfl
  · rintro ls m rfl
    rfl
  · intro r h
    cases src with
    | openFails m => exact absurd h (by simp [inspect])
    | stream ls de =>
        cases de with
        | none =>
            refine ⟨ls, rfl, ?_⟩
            simpa [inspect] using h.symm
        | some m => exact absurd h (by simp [inspect])

/-- Witness for C8 at a concrete failing open and failing decode. -/
theorem c8_inspect_witness :
    inspect "f.vcf".toList (.openFails "boom".toList) =
      .error (.ioFailure "boom".toList) ∧
    inspect "f.vcf.gz".toList (.stream ["x".toList] (some "bad".toList)) =
      .error (.decodeFailure "bad".toList) :=
  ⟨(c8_inspect_all_or_nothing "f.vcf".toList _).1 _ rfl,
   (c8_inspect_all_or_nothing "f.vcf.gz".toList _).2.1 _ _ rfl⟩

/-- C9.  A structured meta-line with no `ID=` (as a substring, which is
how the source locates the key) contributes to none of the three lists; a
meta-line whose tag is not contig/INFO/FORMAT increments
`header_line_count` and changes nothing else; and each list produced by a
run is the starting list extended on the right by the stream's
contributions in order, so input order and duplicates are preserved. -/
theorem c9_meta_lines (l : List Char) (r : InspectionResult)
    (lines : List (List Char)) :
    (subFind "ID=".toList (pyStrip l) = none →
      (inspectLine r l).contigs = r.contigs ∧
      (inspectLine r l).info_fields = r.info_fields ∧
      (inspectLine r l).format_fields = r.format_fields) ∧
    ("##".toList.isPrefixOf (pyStrip l) = true →
      ¬ "##contig=".toList.isPrefixOf (pyStrip l) = true →
      ¬ "##INFO=".toList.isPrefixOf (pyStrip l) = true →
      ¬ "##FORMAT=".toList.isPrefixOf (pyStrip l) = true →
      inspectLine r l =
        { r with header_line_count := r.header_line_count + 1 }) ∧
    ("##".toList.isPrefixOf (pyStrip l) = true →
      (inspectLine r l).header_line_count = r.header_line_count + 1) ∧
    ((lines.foldl inspectLine r).contigs =
        r.contigs ++ (inspectLines [] lines).contigs ∧
      (lines.foldl inspectLine r).info_fields =
        r.info_fields ++ (inspectLines [] lines).info_fields ∧
      (lines.foldl inspectLine r).format_fields =
        r.format_fields ++ (inspectLines [] lines).format_fields) := by
  refine ⟨fun hid => ?_, fun hm hnc hni hnf => ?_, fun hm => ?_, ?_, ?_, ?_⟩
  · have hzc : contigContrib (pyStrip l) = [] := by
      unfold contigContrib idRestOf
      rw [hid]
      simp
    have hzi : infoContrib (pyStrip l) = [] := by
      unfold infoContrib idRestOf
      rw [hid]
      simp
    have hzf : formatContrib (pyStrip l) = [] := by
      unfold formatContrib idRestOf
      rw [hid]
      simp
    rw [inspectLine_contigs, inspectLine_info, inspectLine_format,
      hzc, hzi, hzf]
    simp
  · have hzc : contigContrib (pyStrip l) = [] := by
      unfold contigContrib
      rw [if_neg hnc]
    have hzi : infoContrib (pyStrip l) = [] := by
      unfold infoContrib
      rw [if_neg hni]
    have hzf : formatContrib (pyStrip l) = [] := by
      unfold formatContrib
      rw [if_neg hnf]
    rw [inspectLine_meta r l hm, parse_meta_line_spec, hzc, hzi, hzf]
    simp
  · have hh : isHeaderCounted l = true := by
      unfold isHeaderCounted isMetaLine
      rw [hm]
      rfl
    rw [inspectLine_header, hh]
    simp
  · rw [foldl_inspect_contigs]
    unfold inspectLines
    rw [foldl_inspect_contigs]
    simp [initResult]
  · rw [foldl_inspect_info]
    unfold inspectLines
    rw [foldl_inspect_info]
    simp [initResult]
  · rw [foldl_inspect_format]
    unfold inspectLines
    rw [foldl_inspect_format]
    simp [initResult]

/-- Witness for C9: an other-tag meta-line with an `ID=` key only bumps
the header counter, and an ID-less meta-line adds no contig. -/
theorem c9_meta_lines_witness :
    inspectLine (initResult []) "##FILTER=<ID=q10>".toList =
      { initResult [] with header_line_count := 1 } ∧
    (inspectLine (initResult []) "##fileformat=VCFv4.2".toList).contigs =
      [] := by
  constructor
  · have h := (c9_meta_lines "##FILTER=<ID=q10>".toList (initResult [])
      []).2.1 (by decide) (by decide) (by decide) (by decide)
    exact h.trans (by decide)
  · have h := (c9_meta_lines "##fileformat=VCFv4.2".toList (initResult [])
      []).1 (by decide)
    exact h.1.trans (by decide)

/-- C4.  When reading the primary file's magic bytes does not raise, the
triad check returns a report whose `all_valid` holds exactly when all
three files exist and the bytes equal `0x6C 0x1B 0x01`; `files_checked`
is 3, each missing file contributes one violation (a bad-magic check adds
one more, and is only performed when the primary file exists), and
`valid` counts the primary file when it exists with good magic plus each
existing companion. -/
theorem c4_triad_valid_iff (fs : FS) (pfx : List Char) (bs : List Nat)
    (hread : fs.ex (bedPath pfx) = true →
      fs.readBin3 (bedPath pfx) = .ok bs) :
    ∃ rep, validate_plink_binary fs pfx = .ok rep ∧
      (rep.all_valid = true ↔
        (fs.ex (bedPath pfx) = true ∧ fs.ex (bimPath pfx) = true ∧
         fs.ex (famPath pfx) = true ∧ bs = PLINK_BED_MAGIC)) ∧
      rep.files_checked = 3 ∧
      rep.invalid.length =
        (if fs.ex (bedPath pfx) = true then 0 else 1) +
        (if fs.ex (bimPath pfx) = true then 0 else 1) +
        (if fs.ex (famPath pfx) = true then 0 else 1) +
        (if fs.ex (bedPath pfx) = true ∧ bs ≠ PLINK_BED_MAGIC
         then 1 else 0) ∧
      rep.valid =
        (if fs.ex (bedPath pfx) = true ∧ bs = PLINK_BED_MAGIC
         then 1 else 0) +
        (if fs.ex (bimPath pfx) = true then 1 else 0) +
        (if fs.ex (famPath pfx) = true then 1 else 0) := by
  cases hbed : fs.ex (bedPath pfx) with
  | false =>
      refine ⟨_, validate_plink_binary_bed_missing fs pfx hbed, ?_, rfl,
        ?_, ?_⟩
      · cases hbim : fs.ex (bimPath pfx) <;>
          cases hfam : fs.ex (famPath pfx) <;>
            simp [ValidationReport.all_valid, hbed, hbim, hfam]
      · cases hbim : fs.ex (bimPath pfx) <;>
          cases hfam : fs.ex (famPath pfx) <;>
            simp [hbed, hbim, hfam]
      · cases hbim : fs.ex (bimPath pfx) <;>
          cases hfam : fs.ex (famPath pfx) <;>
            simp [hbed, hbim, hfam]
  | true =>
      refine ⟨_, validate_plink_binary_bed_ok fs pfx bs hbed (hread hbed),
        ?_, rfl, ?_, ?_⟩
      · cases hbim : fs.ex (bimPath pfx) <;>
          cases hfam : fs.ex (famPath pfx) <;>
            by_cases hbs : bs = PLINK_BED_MAGIC <;>
              simp [ValidationReport.all_valid, hbed, hbim, hfam, hbs]
      · cases hbim : fs.ex (bimPath pfx) <;>
          cases hfam : fs.ex (famPath pfx) <;>
            by_cases hbs : bs = PLINK_BED_MAGIC <;>
              simp [hbed, hbim, hfam, hbs]
      · cases hbim : fs.ex (bimPath pfx) <;>
          cases hfam : fs.ex (famPath pfx) <;>
            by_cases hbs : bs = PLINK_BED_MAGIC <;>
              simp [hbed, hbim, hfam, hbs]

/-- Witness for C4 on a filesystem where the triad exists with good
magic bytes. -/
theorem c4_triad_valid_iff_witness :
    ∃ rep, validate_plink_binary fsAllOk "geno".toList = .ok rep ∧
      (rep.all_valid = true ↔
        (fsAllOk.ex (bedPath "geno".toList) = true ∧
         fsAllOk.ex (bimPath "geno".toList) = true ∧
         fsAllOk.ex (famPath "geno".toList) = true ∧
         [0x6c, 0x1b, 0x01] = PLINK_BED_MAGIC)) ∧
      rep.files_checked = 3 ∧
      rep.invalid.length =
        (if fsAllOk.ex (bedPath "geno".toList) = true then 0 else 1) +
        (if fsAllOk.ex (bimPath "geno".toList) = true then 0 else 1) +
        (if fsAllOk.ex (famPath "geno".toList) = true then 0 else 1) +
        (if fsAllOk.ex (bedPath "geno".toList) = true ∧
            [0x6c, 0x1b, 0x01] ≠ PLINK_BED_MAGIC then 1 else 0) ∧
      rep.valid =
        (if fsAllOk.ex (bedPath "geno".toList) = true ∧
            [0x6c, 0x1b, 0x01] = PLINK_BED_MAGIC then 1 else 0) +
        (if fsAllOk.ex (bimPath "geno".toList) = true then 1 else 0) +
        (if fsAllOk.ex (famPath "geno".toList) = true then 1 else 0) :=
  c4_triad_valid_iff fsAllOk "geno".toList [0x6c, 0x1b, 0x01]
    (fun _ => rfl)

/-- C5, counterexample.  `validate_plink_binary` reads the primary
file's magic bytes outside any exception handler, so an I/O error raised
there propagates to the caller instead of becoming a violation entry:
with every file existing but the binary read raising "Permission
denied", the call raises (models as `.error`) and no report is
returned — refuting "the StructuralValidator operations never raise". -/
theorem c5_never_raises_counterexample :
    validate_plink_binary fsBedUnreadable "data/geno".toList =
      .error "Permission denied".toList := rfl

/-- C5, amended.  `validateText` converts a missing file, a bad
signature and a caught read error (`OSError`, including `BadGzipFile`)
each into exactly one violation entry in a returned report with
`files_checked = 1`, and the three message families are pairwise
distinct, so those causes are distinguishable in the violation text; an
exception outside the caught class raised while reading the first line
(a decode error, a truncated or corrupt gzip stream) propagates to the
caller instead.  `validateBinaryTriad` likewise converts missing files
and bad magic bytes into violations and returns a report whenever
reading the primary file's magic bytes succeeds or is skipped, while an
I/O error raised during that read propagates. -/
theorem c5_report_policy :
    (∀ (fs : FS) (p : List Char) (rep : ValidationReport),
      validate_vcf fs p = .ok rep →
      rep.files_checked = 1 ∧
      (rep.valid = 1 ∧ rep.invalid = [] ∨
       ∃ m, rep.invalid = [m] ∧ rep.valid = 0 ∧
         (m = msgNotFound p ∨ m = msgMissingHeader p ∨
          ∃ e, m = msgReadError e))) ∧
    (∀ (fs : FS) (p : List Char),
      (fs.ex p = false ∨ (∃ line, fs.readText p = .ok line) ∨
        (∃ e, fs.readText p = .oserr e)) →
      ∃ rep, validate_vcf fs p = .ok rep) ∧
    (∀ (fs : FS) (p e : List Char),
      fs.ex p = true → fs.readText p = .uncaught e →
      validate_vcf fs p = .error e) ∧
    (∀ p q e, msgNotFound p ≠ msgMissingHeader q ∧
      msgNotFound p ≠ msgReadError e ∧ msgMissingHeader q ≠ msgReadError e) ∧
    (∀ (fs : FS) (pfx : List Char) (bs : List Nat),
      fs.readBin3 (bedPath pfx) = .ok bs →
      ∃ rep, validate_plink_binary fs pfx = .ok rep) ∧
    (∀ (fs : FS) (pfx : List Char) (e : List Char),
      fs.ex (bedPath pfx) = true →
      fs.readBin3 (bedPath pfx) = .error e →
      validate_plink_binary fs pfx = .error e) := by
  refine ⟨?_, ?_, ?_, ?_, ?_, ?_⟩
  · intro fs p rep h
    cases hex : fs.ex p with
    | false =>
        have heq := (validate_vcf_not_found fs p hex).symm.trans h
        injection heq with heq
        subst heq
        exact ⟨rfl, Or.inr ⟨msgNotFound p, rfl, rfl, Or.inl rfl⟩⟩
    | true =>
        cases hrd : fs.readText p with
        | ok line =>
            by_cases hsig : VCF_HEADER.isPrefixOf (pyStrip line) = true
            · have heq :=
                (validate_vcf_good_sig fs p line hex hrd hsig).symm.trans h
              injection heq with heq
              subst heq
              exact ⟨rfl, Or.inl ⟨rfl, rfl⟩⟩
            · have heq :=
                (validate_vcf_bad_sig fs p line hex hrd hsig).symm.trans h
              injection heq with heq
              subst heq
              exact ⟨rfl, Or.inr ⟨msgMissingHeader p, rfl, rfl,
                Or.inr (Or.inl rfl)⟩⟩
        | oserr e =>
            have heq := (validate_vcf_oserr fs p e hex hrd).symm.trans h
            injection heq with heq
            subst heq
            exact ⟨rfl, Or.inr ⟨msgReadError e, rfl, rfl,
              Or.inr (Or.inr ⟨e, rfl⟩)⟩⟩
        | uncaught e =>
            have heq := (validate_vcf_uncaught fs p e hex hrd).symm.trans h
            exact absurd heq (by simp)
  · intro fs p hcase
    cases hex : fs.ex p with
    | false => exact ⟨_, validate_vcf_not_found fs p hex⟩
    | true =>
        rcases hcase with hex' | ⟨line, hrd⟩ | ⟨e, hrd⟩
        · rw [hex] at hex'
          cases hex'
        · by_cases hsig : VCF_HEADER.isPrefixOf (pyStrip line) = true
          · exact ⟨_, validate_vcf_good_sig fs p line hex hrd hsig⟩
          · exact ⟨_, validate_vcf_bad_sig fs p line hex hrd hsig⟩
        · exact ⟨_, validate_vcf_oserr fs p e hex hrd⟩
  · intro fs p e hex hrd
    exact validate_vcf_uncaught fs p e hex hrd
  · intro p q e
    refine ⟨?_, ?_, ?_⟩
    · intro h
      have h1 := congrArg List.headI h
      rw [show (msgNotFound p).headI = 'F' from rfl,
        show (msgMissingHeader q).headI = 'M' from rfl] at h1
      exact absurd h1 (by decide)
    · intro h
      have h1 := congrArg List.headI h
      rw [show (msgNotFound p).headI = 'F' from rfl,
        show (msgReadError e).headI = 'R' from rfl] at h1
      exact absurd h1 (by decide)
    · intro h
      have h1 := congrArg List.headI h
      rw [show (msgMissingHeader q).headI = 'M' from rfl,
        show (msgReadError e).headI = 'R' from rfl] at h1
      exact absurd h1 (by decide)
  · intro fs pfx bs hok
    cases hbed : fs.ex (bedPath pfx) with
    | false => exact ⟨_, validate_plink_binary_bed_missing fs pfx hbed⟩
    | true => exact ⟨_, validate_plink_binary_bed_ok fs pfx bs hbed hok⟩
  · intro fs pfx e hbed herr
    exact validate_plink_binary_bed_err fs pfx e hbed herr

/-- Witness for C5's amended theorem: a returned report for the caught
read-error class, the propagating decode-class read on the text side,
and the propagating magic-byte read on the triad side, at concrete
filesystems. -/
theorem c5_report_policy_witness :
    (∃ rep, validate_vcf fsBedUnreadable "a.vcf".toList = .ok rep) ∧
    validate_vcf fsTextUndecodable "a.vcf".toList =
      .error "invalid utf-8".toList ∧
    validate_plink_binary fsBedUnreadable "data/geno".toList =
      .error "Permission denied".toList :=
  ⟨c5_report_policy.2.1 fsBedUnreadable "a.vcf".toList
     (Or.inr (Or.inl ⟨[], rfl⟩)),
   c5_report_policy.2.2.1 fsTextUndecodable "a.vcf".toList
     "invalid utf-8".toList rfl rfl,
   c5_report_policy.2.2.2.2.2 fsBedUnreadable "data/geno".toList
     "Permission denied".toList rfl rfl⟩

/-- C7.  `validate_batch` on a single path behaves exactly as
`validate_vcf` when the suffix is `.vcf` or `.gz` and exactly as
`validate_plink_binary` otherwise (propagated exceptions included), and
over any path list whose sub-checks all return reports it returns the
aggregate whose `files_checked`/`valid` are the sums and whose
`invalid`/`warnings` are the in-order concatenations of the
sub-reports' fields. -/
theorem c7_batch_dispatch (fs : FS) :
    (∀ p, TEXT_SUFFIXES.contains (pySuffix p) = true →
      validate_batch fs [p] = validate_vcf fs p) ∧
    (∀ p, TEXT_SUFFIXES.contains (pySuffix p) = false →
      validate_batch fs [p] = validate_plink_binary fs p) ∧
    (∀ paths reps, subReports fs paths = .ok reps →
      validate_batch fs paths = .ok
        { files_checked := (reps.map (fun r => r.files_checked)).sum,
          valid := (reps.map (fun r => r.valid)).sum,
          invalid := (reps.map (fun r => r.invalid)).flatten,
          warnings := (reps.map (fun r => r.warnings)).flatten }) := by
  have hbase : ∀ p, validate_batch fs [p] =
      (match (if TEXT_SUFFIXES.contains (pySuffix p) then validate_vcf fs p
          else validate_plink_binary fs p) with
       | .error e => .error e
       | .ok sub => .ok (combineReports {} sub)) := fun p => rfl
  refine ⟨?_, ?_, ?_⟩
  · intro p hsuf
    rw [hbase p, if_pos hsuf]
    cases htxt : validate_vcf fs p with
    | error e => rfl
    | ok rep => simp [combineReports_empty_left]
  · intro p hsuf
    have hsuf' : ¬ TEXT_SUFFIXES.contains (pySuffix p) = true := by
      rw [hsuf]
      simp
    rw [hbase p, if_neg hsuf']
    cases hbin : validate_plink_binary fs p with
    | error e => rfl
    | ok rep => simp [combineReports_empty_left]
  · intro paths reps h
    unfold validate_batch
    rw [validateBatchGo_reports fs paths reps h {}]
    congr 1
    simp

/-- Witness for C7 on a batch mixing a `.vcf` path (text check) and a
bare prefix (triad check) over a fully populated filesystem. -/
theorem c7_batch_dispatch_witness :
    validate_batch fsAllOk ["a.vcf".toList, "geno".toList] =
      .ok { files_checked := 4, valid := 4, invalid := [],
            warnings := [] } := by
  have h := (c7_batch_dispatch fsAllOk).2.2
    ["a.vcf".toList, "geno".toList]
    [{ files_checked := 1, valid := 1, invalid := [], warnings := [] },
     { files_checked := 3, valid := 3, invalid := [], warnings := [] }]
    (by rfl)
  exact h.trans (by rfl)

/-- C10.  The empty batch returns the all-zero report, which has
`all_valid = true`, and that empty report is a two-sided identity of the
batch-aggregation operation. -/
theorem c10_empty_batch (fs : FS) (r : ValidationReport) :
    validate_batch fs [] = .ok ({} : ValidationReport) ∧
    ({} : ValidationReport).files_checked = 0 ∧
    ({} : ValidationReport).valid = 0 ∧
    ({} : ValidationReport).invalid = ([] : List (List Char)) ∧
    ({} : ValidationReport).warnings = ([] : List (List Char)) ∧
    ({} : ValidationReport).all_valid = true ∧
    combineReports {} r = r ∧ combineReports r {} = r :=
  ⟨rfl, rfl, rfl, rfl, rfl, rfl, combineReports_empty_left r,
   combineReports_empty_right r⟩

end VcfPlink
